import Mathlib

/-!
Shallow embedding of the zen engine's runtime core — the signal/task
scheduler (src/schedule.ts), the movement integration task
(dev/movement.ts) and the render graph (src/graphics.ts) — together with
theorems checking the specification's claims against it.

JS numbers are modelled as exact rationals; JS Maps are modelled by key
lists or association lists in insertion order; a thrown exception is
modelled by an Option/none or Except/error result (the latter carrying
any state mutated before the throw); task callbacks are external
closures, so an execution produces a trace of invoked task ids.
-/

namespace Zen

/-- JS numbers modelled as exact rationals. -/
abbrev JSNum := Rat

namespace Schedule

/-- Interface SignalState (schedule.ts lines 153-159). -/
structure SignalState where
  id : Nat
  timeSinceRun : JSNum
  precededBy : List Nat
  followedBy : List Nat
  tasks : List Nat
deriving Repr, DecidableEq

/-- Interface Delay (schedule.ts lines 142-145). -/
structure Delay where
  duration : JSNum
  elapsed : JSNum
deriving Repr, DecidableEq

/-- Interface SignalTimestep (schedule.ts lines 161-166). -/
structure SignalTimestep where
  signal : Nat
  duration : JSNum
  elapsed : JSNum
  maxSteps : Nat
deriving Repr, DecidableEq

/-- The scheduler module state: the `tasks` Map is represented by its key
list (the stored callbacks are opaque closures), `taskDelays` by an
association list, `signals` and `signalIntervals` by arrays, plus the two
id counters. -/
structure SchedState where
  tasks : List Nat
  taskDelays : List (Nat × Delay)
  signals : List SignalState
  signalIntervals : List SignalTimestep
  nextTaskId : Nat
  nextSignalId : Nat
deriving Repr, DecidableEq

/-- The module's initial (empty) state. -/
def initState : SchedState :=
  { tasks := [], taskDelays := [], signals := [], signalIntervals := [],
    nextTaskId := 0, nextSignalId := 0 }

/-- getSignalState (lines 83-86): `signals.find((s) => s.id === signal)`,
whose result the source asserts non-null. -/
def getSignalState (σ : SchedState) (signal : Nat) : Option SignalState :=
  σ.signals.find? (fun s => s.id == signal)

/-- JS mutation through the reference returned by getSignalState:
the matching array entry is rewritten in place. -/
def setSignalState (σ : SchedState) (signal : Nat) (f : SignalState → SignalState) : SchedState :=
  { σ with signals := σ.signals.map (fun s => if s.id == signal then f s else s) }

/-- createTask (lines 88-102): allocates the next task id and inserts it
into the live-task Map. -/
def createTask (σ : SchedState) : SchedState × Nat :=
  let t := σ.nextTaskId
  ({ σ with tasks := σ.tasks ++ [t], nextTaskId := t + 1 }, t)

/-- onSignal (lines 26-33). A `none` result models the TypeError thrown
when the signal identity is unknown: getSignalState's non-null assertion
yields undefined and `.tasks.push` dereferences it. -/
def onSignal (σ : SchedState) (signal : Nat) : Option (SchedState × Nat) :=
  match getSignalState σ signal with
  | none => none
  | some _ =>
    let (σ1, t) := createTask σ
    some (setSignalState σ1 signal (fun ss => { ss with tasks := ss.tasks ++ [t] }), t)

/-- afterDelay (lines 35-39). -/
def afterDelay (σ : SchedState) (duration : JSNum) : SchedState × Nat :=
  let (σ1, t) := createTask σ
  ({ σ1 with taskDelays := σ1.taskDelays ++ [(t, { duration := duration, elapsed := 0 })] }, t)

/-- cancelTask (lines 41-44): Map.delete on both the task and delay maps. -/
def cancelTask (σ : SchedState) (task : Nat) : SchedState :=
  { σ with
    tasks := σ.tasks.filter (fun t => t != task),
    taskDelays := σ.taskDelays.filter (fun td => td.1 != task) }

/-- createSignal (lines 104-119). -/
def createSignal (σ : SchedState) : SchedState × Nat :=
  let s := σ.nextSignalId
  let sig : SignalState :=
    { id := s, timeSinceRun := 0, precededBy := [], followedBy := [], tasks := [] }
  ({ σ with signals := σ.signals ++ [sig], nextSignalId := s + 1 }, s)

/-- The default for `maxSteps` (line 4). -/
def defaultMaxUpdateSteps : Nat := 10

/-- The clamp `Math.max(1, options.maxSteps || defaultMaxUpdateSteps)`
(line 54): an absent or zero (falsy) maxSteps falls back to the default. -/
def signalMaxSteps (maxSteps : Option Nat) : Nat :=
  max 1 (match maxSteps with
    | none => defaultMaxUpdateSteps
    | some 0 => defaultMaxUpdateSteps
    | some m => m)

/-- signal (lines 46-65): creates a signal and, when a positive frequency
is given, registers a fixed-timestep interval of duration 1/frequency. -/
def signal (σ : SchedState) (frequency : Option JSNum) (maxSteps : Option Nat) : SchedState × Nat :=
  let (σ1, s) := createSignal σ
  match frequency with
  | some f =>
    if 0 < f then
      ({ σ1 with signalIntervals := σ1.signalIntervals ++
          [{ signal := s, duration := 1 / f, elapsed := 0, maxSteps := signalMaxSteps maxSteps }] }, s)
    else (σ1, s)
  | none => (σ1, s)

/-- signalBefore (lines 67-71). The source pushes `signal` — the argument
itself — onto that signal's own precededBy list (not the new signal `s`).
A `none` result models the throw on an unknown signal. -/
def signalBefore (σ : SchedState) (signal : Nat) : Option (SchedState × Nat) :=
  let (σ1, s) := createSignal σ
  match getSignalState σ1 signal with
  | none => none
  | some _ =>
    some (setSignalState σ1 signal (fun ss => { ss with precededBy := ss.precededBy ++ [signal] }), s)

/-- signalAfter (lines 73-77); same shape as signalBefore, pushing
`signal` onto its own followedBy list. -/
def signalAfter (σ : SchedState) (signal : Nat) : Option (SchedState × Nat) :=
  let (σ1, s) := createSignal σ
  match getSignalState σ1 signal with
  | none => none
  | some _ =>
    some (setSignalState σ1 signal (fun ss => { ss with followedBy := ss.followedBy ++ [signal] }), s)

/-- One iteration of executeSignal's task loop at index i (lines 222-232).
At the initial out-of-range index (i = length) the array read yields
undefined, the Map lookup misses and the splice removes nothing; at an
in-range index a dead task is spliced out and a live one is executed. -/
def taskLoopStep (live : List Nat) (lst : List Nat) (i : Nat) : List Nat × List Nat :=
  match lst.get? i with
  | none => (lst, [])
  | some t => if live.contains t then (lst, [t]) else (lst.eraseIdx i, [])

/-- The descending loop `for (let i = len; i >= 0; i--)` (line 222) over a
signal's task list, entered at i = tasks.length. Returns the updated task
list and the trace of invoked task ids. -/
def taskLoop (live : List Nat) : Nat → List Nat → List Nat × List Nat
  | 0, lst => taskLoopStep live lst 0
  | i + 1, lst =>
    let r := taskLoopStep live lst (i + 1)
    let r' := taskLoop live i r.1
    (r'.1, r.2 ++ r'.2)

/-- Sequential execution of a list of signals (the precededBy/followedBy
loops of executeSignal), threading the signal array, concatenating traces
and conjoining completion flags. -/
def executeSeq (next : List SignalState → Nat → List SignalState × List Nat × Bool) :
    List SignalState → List Nat → List SignalState × List Nat × Bool
  | sigs, [] => (sigs, [], true)
  | sigs, s :: rest =>
    let r1 := next sigs s
    let r2 := executeSeq next r1.1 rest
    (r2.1, r1.2.1 ++ r2.2.1, r1.2.2 && r2.2.2)

/-- The tail of executeSignal after the precededBy phase: `r1` is that
phase's result (updated signal array, trace, completion flag). The
signal's record is re-read from r1 because JS mutates it in place; the
task loop's pruned list is written back, the followedBy signals run, then
timeSinceRun resets to 0 (lines 221-239). -/
def executePhase2 (live : List Nat)
    (next : List SignalState → Nat → List SignalState × List Nat × Bool)
    (r1 : List SignalState × List Nat × Bool) (s : Nat) :
    List SignalState × List Nat × Bool :=
  match r1.1.find? (fun t => t.id == s) with
  | none => (r1.1, r1.2.1, false)
  | some ss1 =>
    let r2 := taskLoop live ss1.tasks.length ss1.tasks
    let sigs2 := r1.1.map (fun t => if t.id == s then { t with tasks := r2.1 } else t)
    let r3 := executeSeq next sigs2 ss1.followedBy
    let sigs4 := r3.1.map (fun t => if t.id == s then { t with timeSinceRun := 0 } else t)
    (sigs4, r1.2.1 ++ r2.2 ++ r3.2.1, r1.2.2 && r3.2.2)

/-- executeSignal (lines 213-240): execute all precededBy signals
(depth-first), then the signal's own task loop, then all followedBy
signals. JS recursion is modelled with an explicit call-depth bound
`fuel`; the Bool is false when the bound was exhausted (the source
recursion did not return within that depth) or the signal was unknown. -/
def executeSignal (live : List Nat) : Nat → List SignalState → Nat → List SignalState × List Nat × Bool
  | 0, sigs, _ => (sigs, [], false)
  | fuel + 1, sigs, s =>
    match sigs.find? (fun ss => ss.id == s) with
    | none => (sigs, [], false)
    | some ss =>
      executePhase2 live (fun a b => executeSignal live fuel a b)
        (executeSeq (fun a b => executeSignal live fuel a b) sigs ss.precededBy) s

/-- updateSignalInterval (lines 199-211), reduced to the two quantities
the specification speaks about: how many times executeSignal is invoked
this tick (the loop bound `steps`) and the carried-over elapsed time. -/
def updateSignalInterval (iv : SignalTimestep) (delta : JSNum) : Nat × JSNum :=
  let elapsed := iv.elapsed + delta
  let fractionalSteps := elapsed / iv.duration
  let steps := fractionalSteps.floor
  let remainingTime := (fractionalSteps - steps) * iv.duration
  (steps.toNat, remainingTime)

/-- updateDelay (lines 168-174) folded over the taskDelays map as the
per-tick loop does (lines 121-124): each entry accumulates the tick delta
and, once past its duration, its task fires and the entry is cancelled.
Returns the surviving entries and the ids of tasks that fired. -/
def updateDelays (delays : List (Nat × Delay)) (delta : JSNum) : List (Nat × Delay) × List Nat :=
  match delays with
  | [] => ([], [])
  | td :: rest =>
    let e := td.2.elapsed + delta
    let r := updateDelays rest delta
    if td.2.duration < e then (r.1, td.1 :: r.2)
    else ((td.1, { td.2 with elapsed := e }) :: r.1, r.2)

end Schedule

namespace Movement

/-- A gl-matrix vec2. -/
structure Vec2 where
  x : JSNum
  y : JSNum
deriving Repr, DecidableEq

/-- Attribute Movement (dev/movement.ts lines 30-42). -/
structure MovementAttr where
  decay : JSNum
  mass : JSNum
  force : Vec2
  velocity : Vec2
deriving Repr, DecidableEq

/-- move (dev/movement.ts lines 63-80): acceleration force/mass and decay
velocity*decay are computed from the incoming state, added to and
subtracted from the velocity, the position advances by velocity*deltaTime
and the force is zeroed. Returns the updated Movement and position. -/
def move (m : MovementAttr) (pos : Vec2) (deltaTime : JSNum) : MovementAttr × Vec2 :=
  let accel : Vec2 := ⟨m.force.x * (1 / m.mass), m.force.y * (1 / m.mass)⟩
  let decel : Vec2 := ⟨m.velocity.x * m.decay, m.velocity.y * m.decay⟩
  let v1 : Vec2 := ⟨m.velocity.x + accel.x, m.velocity.y + accel.y⟩
  let v2 : Vec2 := ⟨v1.x - decel.x, v1.y - decel.y⟩
  let moveDelta : Vec2 := ⟨v2.x * deltaTime, v2.y * deltaTime⟩
  ({ m with velocity := v2, force := ⟨0, 0⟩ },
   ⟨pos.x + moveDelta.x, pos.y + moveDelta.y⟩)

/-- The C3 scenario's Movement attribute: force [1,0], mass 1, decay 0. -/
def c3Movement : MovementAttr :=
  { decay := 0, mass := 1, force := ⟨1, 0⟩, velocity := ⟨0, 0⟩ }

end Movement

namespace Schedule

/-- The C1 scenario: a signal s (id 0), p := signalBefore(s) (id 1), and a
task (id 0) registered on p via onSignal. -/
def c1Setup : SchedState :=
  let σs := createSignal initState
  match signalBefore σs.1 σs.2 with
  | some (σ1, p) =>
    match onSignal σ1 p with
    | some (σ2, _) => σ2
    | none => σ1
  | none => σs.1

end Schedule

namespace Graphics

/-- GLType (graphics.ts line 671). -/
inductive GLType
  | float
  | vec2
  | mat3
  | int
deriving Repr, DecidableEq

/-- getPropertySize (lines 831-842): buffer slots per property type. -/
def getPropertySize : GLType → Nat
  | .float => 1
  | .vec2 => 2
  | .mat3 => 9
  | .int => 1

/-- Interface Property (lines 704-708); `location` is the attribute
location reported by the linked GL program (negative when unused). -/
structure Property where
  name : String
  type : GLType
  location : Int
deriving Repr, DecidableEq

/-- ShaderMode (line 539). -/
inductive ShaderMode
  | world
  | fullscreen
deriving Repr, DecidableEq

/-- The property list assembled by createShader (lines 574-583): the
built-in _TRANSFORM (world mode only), _DEPTH and _INDEX, then the
declared custom properties in declaration order. Attribute locations come
from gl.getAttribLocation on the linked program, taken here as the given
assignment `loc`. -/
def shaderProperties (mode : ShaderMode) (declared : List (String × GLType))
    (loc : String → Int) : List Property :=
  (match mode with
   | .world => [{ name := ("_TRANSFORM"), type := .mat3, location := loc ("_TRANSFORM") }]
   | .fullscreen => [])
  ++ [{ name := ("_DEPTH"), type := .float, location := loc ("_DEPTH") },
      { name := ("_INDEX"), type := .float, location := loc ("_INDEX") }]
  ++ declared.map (fun nt => { name := nt.1, type := nt.2, location := loc nt.1 })

/-- The per-instance f32 stride computed by createInstanceBuffer (lines
892-927): properties with a negative location are skipped; a mat3 binds
as 3 row attributes, each advancing the stride by its column count. -/
def instanceStride (props : List Property) : Nat :=
  props.foldl
    (fun stride p =>
      if p.location < 0 then stride
      else
        let rows := if p.type = GLType.mat3 then 3 else 1
        let totalElements := getPropertySize p.type
        let cols := totalElements / rows
        stride + rows * cols)
    0

/-- GLValue (lines 672, 678-702), carrying the numeric payloads pushed
into the instance buffer. -/
inductive GLValue
  | float (value : JSNum)
  | int (value : JSNum)
  | vec2 (x y : JSNum)
  | mat3 (value : List JSNum)
deriving Repr, DecidableEq

/-- The floats pushed for one property value by enqueueInstance (lines
431-437): float/int push the scalar, other values are spread. -/
def pushValue : GLValue → List JSNum
  | .float v => [v]
  | .int v => [v]
  | .vec2 x y => [x, y]
  | .mat3 m => m

/-- A gl-matrix mat2d [a, b, c, d, tx, ty]. -/
structure Mat2d where
  a : JSNum
  b : JSNum
  c : JSNum
  d : JSNum
  tx : JSNum
  ty : JSNum
deriving Repr, DecidableEq

/-- gl-matrix mat3.fromMat2d: the 9-element column-major expansion
[a, b, 0, c, d, 0, tx, ty, 1] pushed for the _TRANSFORM property. -/
def mat3FromMat2d (m : Mat2d) : List JSNum :=
  [m.a, m.b, 0, m.c, m.d, 0, m.tx, m.ty, 1]

/-- The per-execution state of a pass touched by enqueueInstance
(RenderPassData lines 231-233). -/
structure PassAccum where
  propertyValues : List JSNum
  instanceCount : Nat
deriving Repr, DecidableEq

/-- The Renderer's JS property array `properties: GLValue[]` (line 848):
setProperty writes at full shader-property indices, so the array is
sparse; a `none` slot models a hole (reading it yields undefined). -/
abbrev RendererProps := List (Option GLValue)

/-- JS sparse-array index assignment `arr[idx] = v`: overwrites an
existing slot, or extends the array to idx + 1 padding with holes. -/
def arraySetSparse : RendererProps → Nat → GLValue → RendererProps
  | [], 0, v => [some v]
  | [], n + 1, v => none :: arraySetSparse [] n v
  | _ :: rest, 0, v => some v :: rest
  | x :: rest, n + 1, v => x :: arraySetSparse rest n v

/-- Renderer.setProperty (lines 863-874): findIndex of the name in the
pass shader's FULL property list — built-ins _TRANSFORM/_DEPTH/_INDEX
included — then store the value at that index in the renderer's sparse
property array; an unknown name logs a warning and changes nothing. -/
def setProperty (shaderProps : List Property) (props : RendererProps)
    (name : String) (value : GLValue) : RendererProps :=
  match shaderProps.findIdx? (fun p => p.name == name) with
  | none => props
  | some idx => arraySetSparse props idx value

/-- The property loop of enqueueInstance (lines 430-437), pushing onto
the already-accumulated buffer: each filled slot pushes its value's
floats; at a hole the loop variable is undefined and `p.type` throws a
TypeError, modelled as an error carrying the buffer as pushed so far. -/
def pushProps : List JSNum → RendererProps → Except (List JSNum) (List JSNum)
  | acc, [] => Except.ok acc
  | acc, none :: _ => Except.error acc
  | acc, some v :: rest => pushProps (acc ++ pushValue v) rest

/-- enqueueInstance (lines 410-440) for one entity with the given pass
shader mode, optional Transform trs() matrix, Renderer depth/index and
sparse property array. A world-mode entity without a Transform logs the
error and is skipped (ok, flag true, pass unchanged). Otherwise the
built-ins are pushed (transform when present, then depth, then index)
and the property array is walked; a hole throws (error carrying the pass
with the partially pushed buffer, instance count NOT incremented), else
the instance count increments (ok, flag false). -/
def enqueueInstance (mode : ShaderMode) (transform : Option Mat2d)
    (depth index : JSNum) (properties : RendererProps) (pass : PassAccum) :
    Except PassAccum (PassAccum × Bool) :=
  if mode = ShaderMode.world ∧ transform = none then Except.ok (pass, true)
  else
    match pushProps
        (pass.propertyValues
          ++ (match transform with
              | some t => mat3FromMat2d t
              | none => [])
          ++ [depth] ++ [index])
        properties with
    | Except.error acc => Except.error { pass with propertyValues := acc }
    | Except.ok acc =>
        Except.ok ({ propertyValues := acc, instanceCount := pass.instanceCount + 1 }, false)

/-- The C4 shader's property layout: world mode with declared custom
properties [a: float, b: vec2]; the linked program uses every attribute
(all locations non-negative). -/
def c4Props : List Property :=
  shaderProperties ShaderMode.world [(("a"), GLType.float), (("b"), GLType.vec2)] (fun _ => 0)

/-- createRenderTexture (lines 460-472) on the framebuffer render-texture
registry, modelled by its name list: reuse the first existing texture
with that name, else append a new one; none models the thrown
8-attachment-limit error. Returns the registry and the texture index. -/
def createRenderTexture (rts : List String) (name : String) : Option (List String × Nat) :=
  match rts.findIdx? (fun rt => rt == name) with
  | some i => some (rts, i)
  | none =>
    if rts.length = 8 then none
    else some (rts ++ [name], rts.length)

/-- JS Array.prototype.splice(start, 0, item) insertion at a non-negative
start clamped to the array length. -/
def insertIdxClamped : List α → Nat → α → List α
  | l, 0, x => x :: l
  | [], _ + 1, x => [x]
  | a :: l, n + 1, x => a :: insertIdxClamped l n x

/-- insertSorted (lines 400-408): findIndex of the first element e with
compareFn(item, e) <= 0, then splice the item in there. When findIndex
misses it yields -1, and splice(-1, 0, item) inserts before the LAST
element (at index length - 1; at 0 for an empty array). -/
def insertSorted (arr : List α) (item : α) (le : α → α → Bool) : List α :=
  match arr.findIdx? (fun e => le item e) with
  | some i => insertIdxClamped arr i item
  | none => insertIdxClamped arr (arr.length - 1) item

/-- The slice of RenderPassData (lines 215-234) that the ordering claims
are about. -/
structure PassEntry where
  id : Nat
  drawOrder : JSNum
  enabled : Bool
deriving Repr, DecidableEq

/-- The drawOrder comparator `(a, b) => a.drawOrder - b.drawOrder` (line
138) tested against <= 0. -/
def passLE (a b : PassEntry) : Bool :=
  a.drawOrder - b.drawOrder ≤ 0

/-- The `insertSorted(renderPasses, pass, ...)` call of createRenderPass
(line 138). -/
def insertPass (passes : List PassEntry) (p : PassEntry) : List PassEntry :=
  insertSorted passes p passLE

/-- render (lines 442-458): passes are dispatched by iterating the pass
list front to back, skipping disabled passes. -/
def renderOrder (passes : List PassEntry) : List Nat :=
  (passes.filter (fun p => p.enabled)).map (fun p => p.id)

/-- The interface data of ShaderData (lines 644-652) used by
createRenderPass validation. -/
structure ShaderIface where
  mode : ShaderMode
  properties : List Property
  inputs : List String
  outputs : List String
deriving Repr, DecidableEq

/-- createShader (lines 551-641) reduced to its interface: inputs as
declared; outputs are the implicit "COLOR" (line 592) followed by the
declared outputs. -/
def createShaderIface (mode : ShaderMode) (declared : List (String × GLType))
    (loc : String → Int) (inputs outputs : List String) : ShaderIface :=
  { mode := mode, properties := shaderProperties mode declared loc,
    inputs := inputs, outputs := ("COLOR") :: outputs }

/-- The input/output resolution loops of createRenderPass (lines 77-93):
each (shaderName, rtName) entry must name a declared shader input/output
(else the call throws), then the named render texture is created or
reused. Returns the updated registry and resolved texture indices. -/
def resolveEntries (declaredNames : List String) (entries : List (String × String))
    (rts : List String) : Option (List String × List Nat) :=
  match entries with
  | [] => some (rts, [])
  | e :: rest =>
    if declaredNames.contains e.1 then
      match createRenderTexture rts e.2 with
      | none => none
      | some ri =>
        match resolveEntries declaredNames rest ri.1 with
        | none => none
        | some rr => some (rr.1, ri.2 :: rr.2)
    else none

/-- The createRenderPass options slice relevant here (lines 60-67). -/
structure PassOptions where
  drawOrder : JSNum
  inputs : List (String × String)
  outputs : List (String × String)
deriving Repr, DecidableEq

/-- createRenderPass (lines 58-141) reduced to the validation and
registry effects: resolve input entries, resolve output entries, throw
(none) if the resolved output count differs from the shader's declared
output count (line 95-98), then ordered-insert the new pass, whose id is
the pass count before insertion. -/
def createRenderPass (shader : ShaderIface) (opts : PassOptions)
    (rts : List String) (passes : List PassEntry) :
    Option (List String × List PassEntry × Nat) :=
  match resolveEntries shader.inputs opts.inputs rts with
  | none => none
  | some rIn =>
    match resolveEntries shader.outputs opts.outputs rIn.1 with
    | none => none
    | some rOut =>
      if (shader.outputs.length : Int) - (rOut.2.length : Int) ≠ 0 then none
      else
        some (rOut.1,
          insertPass passes { id := passes.length, drawOrder := opts.drawOrder, enabled := true },
          passes.length)

end Graphics

end Zen

open Zen Zen.Schedule Zen.Movement

/-- Characterization of Rat.floor used to evaluate it on literals. -/
theorem ratFloor_eq (r : ℚ) (z : ℤ) (h1 : (z:ℚ) ≤ r) (h2 : r < z + 1) : r.floor = z := by
  have ha : z ≤ r.floor := Rat.le_floor.mpr h1
  have hb : ¬ (z + 1 ≤ r.floor) := by
    intro hc
    have h3 := Rat.le_floor.mp hc
    push_cast at h3
    exact absurd h3 (not_le.mpr h2)
  omega

/-- C2: the fixed-timestep update fires floor(elapsed/duration) times with
NO clamp to maxSteps — the stored maxSteps field is never read by
updateSignalInterval. With frequency 10 (duration 0.1 s) and maxSteps 3,
an accumulated 0.35 s fires 3 times and carries 0.05 s (agreeing with the
claim's example only because floor(3.5) = 3), but an accumulated 0.55 s
fires 5 times, not min(5, 3) = 3 as the claim requires. -/
theorem updateSignalInterval_ignores_maxSteps :
    (Schedule.signal initState (some 10) (some 3)).1.signalIntervals
      = [{ signal := 0, duration := 1/10, elapsed := 0, maxSteps := 3 }]
    ∧ updateSignalInterval { signal := 0, duration := 1/10, elapsed := 0, maxSteps := 3 } (35/100)
      = (3, 1/20)
    ∧ updateSignalInterval { signal := 0, duration := 1/10, elapsed := 0, maxSteps := 3 } (55/100)
      = (5, 1/20)
    ∧ (5 : Nat) ≠ min 5 3 := by
  refine ⟨?_, ?_, ?_, by decide⟩
  · simp only [Schedule.signal, createSignal, initState, signalMaxSteps, defaultMaxUpdateSteps]
    norm_num
  · simp only [updateSignalInterval]
    rw [show ((0:ℚ) + 35/100) / (1/10) = 7/2 by norm_num]
    rw [ratFloor_eq (7/2 : ℚ) 3 (by norm_num) (by norm_num)]
    norm_num
    decide
  · simp only [updateSignalInterval]
    rw [show ((0:ℚ) + 55/100) / (1/10) = 11/2 by norm_num]
    rw [ratFloor_eq (11/2 : ℚ) 5 (by norm_num) (by norm_num)]
    norm_num
    decide

/-- C3 counterexample: with Movement{force=[1,0], mass=1, decay=0} and
deltaTime = 0.5 the velocity after `move` is [1,0], not [0.5,0]: the code
adds force/mass to the velocity without scaling by deltaTime. -/
theorem move_velocity_counterexample :
    (move c3Movement ⟨0, 0⟩ (1/2)).1.velocity ≠ ⟨1/2, 0⟩ := by
  simp only [move, c3Movement, ne_eq, Movement.Vec2.mk.injEq]
  norm_num

/-- C3 amended: in the same scenario the velocity becomes [1,0] (force/mass
applied as a per-tick impulse, with deltaTime scaling only the position
step, here reaching [0.5,0] from the origin) and the force is reset to
[0,0]. -/
theorem move_impulse_semantics :
    move c3Movement ⟨0, 0⟩ (1/2)
      = ({ c3Movement with velocity := ⟨1, 0⟩, force := ⟨0, 0⟩ }, ⟨1/2, 0⟩) := by
  simp only [move, c3Movement, Prod.mk.injEq, Movement.MovementAttr.mk.injEq,
    Movement.Vec2.mk.injEq]
  norm_num

/-- C1: signalBefore(s) wires `s` into its own precededBy list (the source
pushes the argument, not the new signal), so p (id 1) is orphaned and
executing s recurses on itself forever: for every call-depth bound the
execution is incomplete, no task is ever invoked (in particular p's task,
id 0, never runs), and the signal array is unchanged. -/
theorem signalBefore_self_cycle :
    (getSignalState c1Setup 0).map SignalState.precededBy = some [0]
    ∧ (getSignalState c1Setup 1).map SignalState.tasks = some [0]
    ∧ ∀ fuel, executeSignal c1Setup.tasks fuel c1Setup.signals 0
        = (c1Setup.signals, [], false) := by
  have hsig : c1Setup.signals =
      [{ id := 0, timeSinceRun := 0, precededBy := [0], followedBy := [], tasks := [] },
       { id := 1, timeSinceRun := 0, precededBy := [], followedBy := [], tasks := [0] }] := rfl
  have hlive : c1Setup.tasks = [0] := rfl
  refine ⟨rfl, rfl, ?_⟩
  intro fuel
  rw [hsig, hlive]
  induction fuel with
  | zero => rfl
  | succ n ih =>
    simp [executeSignal, executePhase2, executeSeq, taskLoop, taskLoopStep, ih]

/-- Every task id in the trace of one task-loop iteration is live. -/
theorem taskLoopStep_events_live (live lst : List Nat) (i : Nat) :
    ∀ e ∈ (taskLoopStep live lst i).2, e ∈ live := by
  unfold taskLoopStep
  match h : lst.get? i with
  | none => simp
  | some t =>
    intro e he
    cases hc : live.contains t with
    | false =>
      simp only [hc] at he
      simp at he
    | true =>
      simp only [hc] at he
      simp at he
      subst he
      simpa using hc

/-- Every task id in the trace of the whole task loop is live. -/
theorem taskLoop_events_live (live : List Nat) :
    ∀ (i : Nat) (lst : List Nat), ∀ e ∈ (taskLoop live i lst).2, e ∈ live := by
  intro i
  induction i with
  | zero => intro lst; exact taskLoopStep_events_live live lst 0
  | succ n ih =>
    intro lst e he
    simp only [taskLoop] at he
    simp at he
    rcases he with he | he
    · exact taskLoopStep_events_live live lst (n + 1) e he
    · exact ih _ e he

/-- executeSeq preserves a trace property established by each call. -/
theorem executeSeq_events
    (next : List SignalState → Nat → List SignalState × List Nat × Bool)
    (P : Nat → Prop)
    (hnext : ∀ sigs s, ∀ e ∈ (next sigs s).2.1, P e) :
    ∀ (l : List Nat) (sigs : List SignalState), ∀ e ∈ (executeSeq next sigs l).2.1, P e := by
  intro l
  induction l with
  | nil => simp [executeSeq]
  | cons s rest ih =>
    intro sigs e he
    simp only [executeSeq] at he
    simp at he
    rcases he with he | he
    · exact hnext sigs s e he
    · exact ih _ e he

/-- The phase-2 helper only adds task-loop trace entries, which are live. -/
theorem executePhase2_events_live (live : List Nat)
    (next : List SignalState → Nat → List SignalState × List Nat × Bool)
    (P : Nat → Prop)
    (hnext : ∀ sigs s, ∀ e ∈ (next sigs s).2.1, P e)
    (hlive : ∀ e ∈ live, P e)
    (r1 : List SignalState × List Nat × Bool) (s : Nat)
    (hr1 : ∀ e ∈ r1.2.1, P e) :
    ∀ e ∈ (executePhase2 live next r1 s).2.1, P e := by
  intro e he
  unfold executePhase2 at he
  rcases hF : r1.1.find? (fun t => t.id == s) with _ | ss1
  · rw [hF] at he
    simp at he
    exact hr1 e he
  · rw [hF] at he
    simp at he
    rcases he with he | he | he
    · exact hr1 e he
    · exact hlive e (taskLoop_events_live live ss1.tasks.length ss1.tasks e he)
    · exact executeSeq_events next P hnext ss1.followedBy _ e he

/-- Every task id invoked during executeSignal is in the live-task map:
the traversal always checks liveness before executing. -/
theorem executeSignal_events_live (live : List Nat) :
    ∀ (fuel : Nat) (sigs : List SignalState) (s : Nat),
      ∀ e ∈ (executeSignal live fuel sigs s).2.1, e ∈ live := by
  intro fuel
  induction fuel with
  | zero => intro sigs s; simp [executeSignal]
  | succ n ih =>
    intro sigs s e he
    simp only [executeSignal] at he
    rcases hf : sigs.find? (fun ss => ss.id == s) with _ | ss
    · rw [hf] at he
      simp at he
    · rw [hf] at he
      simp only at he
      refine executePhase2_events_live live _ (fun x => x ∈ live)
        (fun a b => ih a b) (fun _ hx => hx) _ s ?_ e he
      exact executeSeq_events _ _ (fun a b => ih a b) ss.precededBy sigs

/-- Every task id fired by the delay sweep is a key of the delay map. -/
theorem updateDelays_fired_keys (delays : List (Nat × Delay)) (delta : JSNum) :
    ∀ t ∈ (updateDelays delays delta).2, t ∈ delays.map Prod.fst := by
  induction delays with
  | nil => simp [updateDelays]
  | cons hd rest ih =>
    intro t ht
    simp only [updateDelays] at ht
    by_cases hc : hd.2.duration < hd.2.elapsed + delta
    · simp [hc] at ht
      rcases ht with ht | ht
      · simp [ht]
      · simp only [List.map_cons, List.mem_cons]
        right
        exact ih t ht
    · simp [hc] at ht
      simp only [List.map_cons, List.mem_cons]
      right
      exact ih t ht

/-- C7: once cancelTask(task) has returned, the task is absent from both
the live-task map and the delay map, and no later signal execution (at any
depth, from any signal) or delay sweep ever invokes it again — traversal
checks liveness before invoking, even though the id may still sit in
signal task lists. -/
theorem cancelTask_never_runs_again (σ : SchedState) (task : Nat) (fuel s : Nat) (delta : JSNum) :
    task ∉ (cancelTask σ task).tasks
    ∧ task ∉ ((cancelTask σ task).taskDelays.map Prod.fst)
    ∧ task ∉ (executeSignal (cancelTask σ task).tasks fuel (cancelTask σ task).signals s).2.1
    ∧ task ∉ (updateDelays (cancelTask σ task).taskDelays delta).2 := by
  have hlive : task ∉ (cancelTask σ task).tasks := by
    intro hmem
    simp only [cancelTask] at hmem
    rcases List.mem_filter.mp hmem with ⟨_, hbne⟩
    simp at hbne
  have hdel : task ∉ ((cancelTask σ task).taskDelays.map Prod.fst) := by
    intro hmem
    simp only [cancelTask] at hmem
    rcases List.mem_map.mp hmem with ⟨td, htd, hfst⟩
    rcases List.mem_filter.mp htd with ⟨_, hbne⟩
    rw [hfst] at hbne
    simp at hbne
  refine ⟨hlive, hdel, ?_, ?_⟩
  · intro hmem
    exact hlive (executeSignal_events_live _ fuel _ s task hmem)
  · intro hmem
    exact hdel (updateDelays_fired_keys _ delta task hmem)

/-- C5 counterexample: onSignal with an unknown signal identity is not a
guarded no-op — in the source getSignalState's non-null assertion yields
undefined and `.tasks.push(t)` throws a TypeError, modelled here by the
none result on the empty initial state. -/
theorem onSignal_unknown_signal_throws : onSignal initState 0 = none := rfl

/-- C5 amended: cancelTask on an unknown (never created or already
cancelled) task id is a silent no-op that leaves the scheduler state
unchanged, but onSignal on an unknown signal id fails (throws) rather
than no-op — though signals are never deleted, so an unknown signal
cannot arise through the public API. -/
theorem unknown_identity_semantics (σ : SchedState) (task : Nat) (s : Nat)
    (h1 : task ∉ σ.tasks) (h2 : ∀ td ∈ σ.taskDelays, td.1 ≠ task)
    (h3 : getSignalState σ s = none) :
    cancelTask σ task = σ ∧ onSignal σ s = none := by
  constructor
  · have e1 : σ.tasks.filter (fun t => t != task) = σ.tasks := by
      rw [List.filter_eq_self]
      intro x hx
      have hne : x ≠ task := fun hexp => h1 (hexp ▸ hx)
      simpa using hne
    have e2 : σ.taskDelays.filter (fun td => td.1 != task) = σ.taskDelays := by
      rw [List.filter_eq_self]
      intro td htd
      simpa using h2 td htd
    simp [cancelTask, e1, e2]
  · simp [onSignal, h3]

/-- Witness for the C5 amended theorem at a concrete scheduler state. -/
theorem unknown_identity_semantics_witness :
    cancelTask { tasks := [3], taskDelays := [(3, { duration := 1, elapsed := 0 })],
                 signals := [], signalIntervals := [], nextTaskId := 4, nextSignalId := 0 } 5
      = { tasks := [3], taskDelays := [(3, { duration := 1, elapsed := 0 })],
          signals := [], signalIntervals := [], nextTaskId := 4, nextSignalId := 0 }
    ∧ onSignal { tasks := [3], taskDelays := [(3, { duration := 1, elapsed := 0 })],
                 signals := [], signalIntervals := [], nextTaskId := 4, nextSignalId := 0 } 0
      = none :=
  unknown_identity_semantics _ 5 0 (by decide) (by decide) rfl

open Zen.Graphics

/-- C8: enqueueInstance for a world-mode pass on an entity without a
Transform attribute logs the error (second component true), does not
increment the instance count and appends nothing to the instance data:
the pass state is returned unchanged, and the call does not throw (the
guard runs before the property loop, so the frame continues). -/
theorem enqueue_world_without_transform (depth index : JSNum)
    (properties : RendererProps) (pass : PassAccum) :
    enqueueInstance ShaderMode.world none depth index properties pass
      = Except.ok (pass, true) := by
  simp [enqueueInstance]

/-- Helper: findIdx? over an appended singleton that satisfies the
predicate, when the prefix does not. -/
theorem findIdx?_append_singleton {α : Type} (p : α → Bool) (l : List α) (a : α) :
    ∀ i : Nat, List.findIdx? p l i = none → p a = true →
      List.findIdx? p (l ++ [a]) i = some (i + l.length) := by
  induction l with
  | nil =>
    intro i _ hp
    simp [List.findIdx?_cons, hp]
  | cons x xs ih =>
    intro i hnone hp
    rw [List.findIdx?_cons] at hnone
    by_cases hx : p x = true
    · simp [hx] at hnone
    · simp only [List.cons_append, List.findIdx?_cons]
      simp only [hx, if_false] at hnone ⊢
      simp only [Bool.false_eq_true, if_false]
      rw [ih (i + 1) hnone hp]
      congr 1
      simp
      omega

/-- C9: createRenderTexture is idempotent per name — whatever the first
call for a name returns, any subsequent call with that name on the
resulting registry returns the same registry (no growth) and the same
texture index, so passes naming the same render texture share it. -/
theorem createRenderTexture_keyed_by_name (rts rts' : List String) (name : String) (i : Nat)
    (h : createRenderTexture rts name = some (rts', i)) :
    createRenderTexture rts' name = some (rts', i) := by
  unfold createRenderTexture at h ⊢
  rcases hf : List.findIdx? (fun rt => rt == name) rts 0 with _ | j
  · rw [hf] at h
    by_cases hl : rts.length = 8
    · simp [hl] at h
    · rw [if_neg hl] at h
      simp only [Option.some.injEq, Prod.mk.injEq] at h
      rcases h with ⟨h1, h2⟩
      obtain ⟨rfl, rfl⟩ : rts' = rts ++ [name] ∧ i = rts.length := by
        constructor
        · exact h1.symm
        · exact h2.symm
      rw [findIdx?_append_singleton (fun rt => rt == name) rts name 0 hf (by simp)]
      simp
  · rw [hf] at h
    simp only [Option.some.injEq, Prod.mk.injEq] at h
    rcases h with ⟨h1, h2⟩
    subst h1
    rw [hf]
    simp [h2]

/-- Witness for C9 at a concrete registry: creating "COLOR" then
re-creating it returns the same registry and index. -/
theorem createRenderTexture_keyed_by_name_witness :
    createRenderTexture [("COLOR")] ("COLOR") = some ([("COLOR")], 0) :=
  createRenderTexture_keyed_by_name [] [("COLOR")] ("COLOR") 0 rfl

/-- C4: for the world-mode shader with declared properties [a: float,
b: vec2] the per-instance stride is 3 (transform rows) * 3 + 1 (depth) +
1 (index) + 1 (a) + 2 (b) = 14 buffer slots; but a Renderer configured
through setProperty holds its custom values at the FULL shader-property
indices 3 and 4 (built-ins occupy 0-2), so its property array has holes
at 0-2, and enqueueInstance's property loop dereferences the first hole
and throws a TypeError right after pushing the 11 built-in floats and
before incrementing the instance count — the enqueue crashes instead of
appending a 14-float record per instance. -/
theorem enqueue_setProperty_crash (t : Mat2d) (depth index a b1 b2 : JSNum) (pass : PassAccum) :
    instanceStride c4Props = 3 * 3 + 1 + 1 + 1 + 2
    ∧ setProperty c4Props (setProperty c4Props [] ("a") (GLValue.float a))
        ("b") (GLValue.vec2 b1 b2)
      = [none, none, none, some (GLValue.float a), some (GLValue.vec2 b1 b2)]
    ∧ enqueueInstance ShaderMode.world (some t) depth index
        [none, none, none, some (GLValue.float a), some (GLValue.vec2 b1 b2)] pass
      = Except.error { pass with propertyValues :=
          pass.propertyValues ++ mat3FromMat2d t ++ [depth] ++ [index] } := by
  refine ⟨rfl, rfl, ?_⟩
  simp [enqueueInstance, pushProps]

/-- Helper: when some element satisfies p, findIdx? returns the offset
plus the length of the longest failing prefix. -/
theorem findIdx?_eq_takeWhile_length {α : Type} (p : α → Bool) :
    ∀ (l : List α) (i : Nat), (∃ x ∈ l, p x = true) →
      List.findIdx? p l i = some (i + (l.takeWhile (fun e => !p e)).length) := by
  intro l
  induction l with
  | nil =>
    intro i h
    simp at h
  | cons x xs ih =>
    intro i h
    by_cases hx : p x = true
    · rw [List.findIdx?_cons]
      simp [hx, List.takeWhile_cons]
    · rw [List.findIdx?_cons]
      have hxs : ∃ y ∈ xs, p y = true := by
        rcases h with ⟨y, hy, hp⟩
        rcases List.mem_cons.mp hy with rfl | hy
        · exact absurd hp hx
        · exact ⟨y, hy, hp⟩
      simp only [hx, Bool.false_eq_true, if_false]
      rw [ih (i + 1) hxs]
      have hx' : p x = false := by
        cases hpx : p x
        · rfl
        · exact absurd hpx hx
      simp [List.takeWhile_cons, hx']
      omega

/-- Helper: splice insertion at the failing-prefix length splits the list
exactly there. -/
theorem insertIdxClamped_at_takeWhile {α : Type} (q : α → Bool) (item : α) :
    ∀ l : List α,
      insertIdxClamped l (l.takeWhile q).length item
        = l.takeWhile q ++ item :: l.dropWhile q := by
  intro l
  induction l with
  | nil => rfl
  | cons x xs ih =>
    by_cases hx : q x = true
    · simp only [List.takeWhile_cons, List.dropWhile_cons, hx, if_true, List.length_cons]
      simp only [insertIdxClamped, List.cons_append]
      rw [ih]
    · have hx' : q x = false := by
        cases hpx : q x
        · rfl
        · exact absurd hpx hx
      simp only [List.takeWhile_cons, List.dropWhile_cons, hx', Bool.false_eq_true, if_false,
        List.length_nil]
      rfl

/-- Helper: the first element surviving dropWhile fails the predicate. -/
theorem dropWhile_head_false {α : Type} (q : α → Bool) :
    ∀ (l : List α) (y : α) (ys : List α), l.dropWhile q = y :: ys → q y = false := by
  intro l
  induction l with
  | nil =>
    intro y ys h
    simp at h
  | cons x xs ih =>
    intro y ys h
    rw [List.dropWhile_cons] at h
    by_cases hx : q x = true
    · simp only [hx, if_true] at h
      exact ih y ys h
    · have hx' : q x = false := by
        cases hpx : q x
        · rfl
        · exact absurd hpx hx
      simp only [hx', Bool.false_eq_true, if_false, List.cons.injEq] at h
      rw [← h.1]
      exact hx'

/-- C6 counterexample: among equal drawOrder values the ordered insert
places the NEW pass first, not last — inserting a second drawOrder-0 pass
(id 1) after an existing one (id 0) yields dispatch order [1, 0], so the
list order among equal drawOrder values is the reverse of registration
order, contradicting the claim. -/
theorem insertPass_tie_counterexample :
    insertPass [{ id := 0, drawOrder := 0, enabled := true }]
        { id := 1, drawOrder := 0, enabled := true }
      = [{ id := 1, drawOrder := 0, enabled := true },
         { id := 0, drawOrder := 0, enabled := true }]
    ∧ renderOrder (insertPass [{ id := 0, drawOrder := 0, enabled := true }]
        { id := 1, drawOrder := 0, enabled := true }) ≠ [0, 1] := by
  have h : insertPass [{ id := 0, drawOrder := 0, enabled := true }]
        { id := 1, drawOrder := 0, enabled := true }
      = [{ id := 1, drawOrder := 0, enabled := true },
         { id := 0, drawOrder := 0, enabled := true }] := by
    simp [insertPass, insertSorted, passLE, List.findIdx?_cons, insertIdxClamped]
  refine ⟨h, ?_⟩
  rw [h]
  simp [renderOrder]

/-- C6 amended: provided the pass list is sorted by ascending drawOrder
and some existing pass has drawOrder at least the new pass's (in the
program the present pass, drawOrder Infinity and created first, is such
an element), the ordered insert of createRenderPass keeps the list sorted
but places the new pass immediately BEFORE the first pass of equal or
greater drawOrder — so equal-drawOrder passes sit in reverse registration
order — and per-frame dispatch iterates the resulting list front to
back. -/
theorem insertPass_ordered (l : List PassEntry) (p : PassEntry)
    (hs : l.Pairwise (fun x y => x.drawOrder ≤ y.drawOrder))
    (hex : ∃ e ∈ l, p.drawOrder ≤ e.drawOrder) :
    insertPass l p
      = l.takeWhile (fun e => !(passLE p e)) ++ p :: l.dropWhile (fun e => !(passLE p e))
    ∧ (insertPass l p).Pairwise (fun x y => x.drawOrder ≤ y.drawOrder) := by
  have hexb : ∃ e ∈ l, passLE p e = true := by
    obtain ⟨e, he, hle⟩ := hex
    refine ⟨e, he, ?_⟩
    simp [passLE]
    linarith
  have heq : insertPass l p
      = l.takeWhile (fun e => !(passLE p e)) ++ p :: l.dropWhile (fun e => !(passLE p e)) := by
    unfold insertPass insertSorted
    rw [findIdx?_eq_takeWhile_length (fun e => passLE p e) l 0 hexb]
    simp only [Nat.zero_add]
    exact insertIdxClamped_at_takeWhile (fun e => !(passLE p e)) p l
  refine ⟨heq, ?_⟩
  rw [heq]
  have hsplit : l.takeWhile (fun e => !(passLE p e)) ++ l.dropWhile (fun e => !(passLE p e)) = l :=
    List.takeWhile_append_dropWhile (fun e => !(passLE p e)) l
  have hs' : (l.takeWhile (fun e => !(passLE p e)) ++ l.dropWhile (fun e => !(passLE p e))).Pairwise
      (fun x y => x.drawOrder ≤ y.drawOrder) := by
    rw [hsplit]
    exact hs
  rcases List.pairwise_append.mp hs' with ⟨hT, hD, hTD⟩
  have hpD : ∀ y ∈ l.dropWhile (fun e => !(passLE p e)), p.drawOrder ≤ y.drawOrder := by
    rcases hdw : l.dropWhile (fun e => !(passLE p e)) with _ | ⟨y0, ys⟩
    · simp
    · have hy0 : (fun e => !(passLE p e)) y0 = false :=
        dropWhile_head_false (fun e => !(passLE p e)) l y0 ys hdw
      have hy0' : p.drawOrder ≤ y0.drawOrder := by
        simp [passLE] at hy0
        linarith
      intro y hy
      rcases List.mem_cons.mp hy with rfl | hy
      · exact hy0'
      · have hchain := (List.pairwise_cons.mp (hdw ▸ hD)).1 y hy
        linarith
  apply List.pairwise_append.mpr
  refine ⟨hT, List.pairwise_cons.mpr ⟨hpD, hD⟩, ?_⟩
  intro x hx y hy
  have hqx := @List.mem_takeWhile_imp PassEntry (fun e => !(passLE p e)) l x hx
  have hxp : x.drawOrder ≤ p.drawOrder := by
    simp [passLE] at hqx
    linarith
  rcases List.mem_cons.mp hy with rfl | hy
  · exact hxp
  · exact hTD x hx y hy

/-- Witness for the C6 amended theorem: inserting a drawOrder-3 pass into
a sorted singleton list with a drawOrder-5 pass. -/
theorem insertPass_ordered_witness :
    (insertPass [{ id := 0, drawOrder := 5, enabled := true }]
        { id := 1, drawOrder := 3, enabled := true }
      = ([{ id := 0, drawOrder := 5, enabled := true }] : List PassEntry).takeWhile
          (fun e => !(passLE { id := 1, drawOrder := 3, enabled := true } e))
        ++ { id := 1, drawOrder := 3, enabled := true }
          :: ([{ id := 0, drawOrder := 5, enabled := true }] : List PassEntry).dropWhile
            (fun e => !(passLE { id := 1, drawOrder := 3, enabled := true } e)))
    ∧ (insertPass [{ id := 0, drawOrder := 5, enabled := true }]
        { id := 1, drawOrder := 3, enabled := true }).Pairwise
          (fun x y => x.drawOrder ≤ y.drawOrder) :=
  insertPass_ordered [{ id := 0, drawOrder := 5, enabled := true }]
    { id := 1, drawOrder := 3, enabled := true }
    (by simp)
    ⟨{ id := 0, drawOrder := 5, enabled := true }, by simp, by norm_num⟩

/-- Helper: resolution fails (throws) whenever some entry names an
undeclared shader input/output. -/
theorem resolveEntries_undeclared (declaredNames : List String) :
    ∀ (entries : List (String × String)) (rts : List String),
      (∃ e ∈ entries, declaredNames.contains e.1 = false) →
      resolveEntries declaredNames entries rts = none := by
  intro entries
  induction entries with
  | nil =>
    intro rts h
    simp at h
  | cons e rest ih =>
    intro rts h
    unfold resolveEntries
    by_cases hc : declaredNames.contains e.1 = true
    · have hrest : ∃ x ∈ rest, declaredNames.contains x.1 = false := by
        rcases h with ⟨x, hx, hxc⟩
        rcases List.mem_cons.mp hx with rfl | hx
        · rw [hc] at hxc
          exact absurd hxc (by simp)
        · exact ⟨x, hx, hxc⟩
      rw [if_pos hc]
      rcases createRenderTexture rts e.2 with _ | ri
      · rfl
      · dsimp only
        rw [ih ri.1 hrest]
    · rw [if_neg hc]

/-- Helper: successful resolution returns one texture index per entry. -/
theorem resolveEntries_length (declaredNames : List String) :
    ∀ (entries : List (String × String)) (rts rts' : List String) (idxs : List Nat),
      resolveEntries declaredNames entries rts = some (rts', idxs) →
      idxs.length = entries.length := by
  intro entries
  induction entries with
  | nil =>
    intro rts rts' idxs h
    simp only [resolveEntries, Option.some.injEq, Prod.mk.injEq] at h
    rw [← h.2]
    rfl
  | cons e rest ih =>
    intro rts rts' idxs h
    unfold resolveEntries at h
    by_cases hc : declaredNames.contains e.1 = true
    · rw [if_pos hc] at h
      rcases hct : createRenderTexture rts e.2 with _ | ri
      · rw [hct] at h
        simp at h
      · rw [hct] at h
        dsimp only at h
        rcases hre : resolveEntries declaredNames rest ri.1 with _ | rr
        · rw [hre] at h
          simp at h
        · rw [hre] at h
          simp only [Option.some.injEq, Prod.mk.injEq] at h
          rw [← h.2]
          simp only [List.length_cons]
          rw [ih ri.1 rr.1 rr.2 (by rw [hre])]
    · rw [if_neg hc] at h
      simp at h

/-- C10: createRenderPass throws (and adds no pass — the ordered insert
happens only on the success path) whenever an input entry names an
undeclared shader input, whenever an output entry names an undeclared
shader output, and whenever the (distinct, declared) output entries fail
to cover every declared output — the declared outputs always include the
implicit COLOR added by createShader, as the final conjunct records. -/
theorem createRenderPass_validates (shader : ShaderIface) (opts : PassOptions)
    (rts : List String) (passes : List PassEntry) :
    ((∃ e ∈ opts.inputs, shader.inputs.contains e.1 = false) →
        createRenderPass shader opts rts passes = none)
    ∧ ((∃ e ∈ opts.outputs, shader.outputs.contains e.1 = false) →
        createRenderPass shader opts rts passes = none)
    ∧ ((opts.outputs.map Prod.fst).Nodup →
        (∀ e ∈ opts.outputs, e.1 ∈ shader.outputs) →
        (∃ o ∈ shader.outputs, o ∉ opts.outputs.map Prod.fst) →
        createRenderPass shader opts rts passes = none)
    ∧ (∀ (mode : ShaderMode) (declared : List (String × GLType)) (loc : String → Int)
        (ins outs : List String),
        ("COLOR") ∈ (createShaderIface mode declared loc ins outs).outputs) := by
  refine ⟨?_, ?_, ?_, ?_⟩
  · intro h
    unfold createRenderPass
    rw [resolveEntries_undeclared shader.inputs opts.inputs rts h]
  · intro h
    unfold createRenderPass
    rcases resolveEntries shader.inputs opts.inputs rts with _ | rIn
    · rfl
    · dsimp only
      rw [resolveEntries_undeclared shader.outputs opts.outputs rIn.1 h]
  · intro hnd hsub hmiss
    unfold createRenderPass
    rcases resolveEntries shader.inputs opts.inputs rts with _ | rIn
    · rfl
    · dsimp only
      rcases hO : resolveEntries shader.outputs opts.outputs rIn.1 with _ | rOut
      · rfl
      · dsimp only
        have hlen : rOut.2.length = opts.outputs.length :=
          resolveEntries_length shader.outputs opts.outputs rIn.1 rOut.1 rOut.2 (by rw [hO])
        have hlt : opts.outputs.length < shader.outputs.length := by
          obtain ⟨o, ho, hno⟩ := hmiss
          have hcons : (o :: opts.outputs.map Prod.fst).Nodup := by
            rw [List.nodup_cons]
            exact ⟨hno, hnd⟩
          have hsub' : (o :: opts.outputs.map Prod.fst) ⊆ shader.outputs := by
            intro k hk
            rcases List.mem_cons.mp hk with rfl | hk
            · exact ho
            · obtain ⟨e, he, rfl⟩ := List.mem_map.mp hk
              exact hsub e he
          have := (List.subperm_of_subset hcons hsub').length_le
          simp only [List.length_cons, List.length_map] at this
          omega
        rw [if_pos ?_]
        rw [hlen]
        omega
  · intro mode declared loc ins outs
    simp [createShaderIface]

/-- Witness for C10: a shader declaring only the implicit COLOR output,
registered with empty outputs, is rejected. -/
theorem createRenderPass_validates_witness :
    createRenderPass
        { mode := ShaderMode.fullscreen, properties := [], inputs := [], outputs := [("COLOR")] }
        { drawOrder := 0, inputs := [], outputs := [] } [] []
      = none :=
  (createRenderPass_validates
      { mode := ShaderMode.fullscreen, properties := [], inputs := [], outputs := [("COLOR")] }
      { drawOrder := 0, inputs := [], outputs := [] } [] []).2.2.1
    (by simp) (by simp) ⟨("COLOR"), by simp, by simp⟩
